import Mathlib

/-!
Verification of the hub-mirror-action synchronization engine
(`src/hub-mirror/mirror.py` and `src/hub-mirror/utils.py`).

The Python sources are shallowly embedded below.  Pure helpers from
`utils.py` become Lean functions over `List Char` / `String`; the
command-issuing methods of `Mirror` become functions that return the
trace of external git invocations; the stateful download/update/clone
recovery logic becomes an explicit state-passing interpreter.
-/

/-! ## Embedding of `utils.py` -/

/-- A character of the Python character class `[a-fA-F0-9]`
(used by `is_40_hex_chars` in `utils.py`). -/
def isHexChar (c : Char) : Bool :=
  c.isDigit || ('a' ≤ c && c ≤ 'f') || ('A' ≤ c && c ≤ 'F')

/-- Python `re.match(r'^[a-fA-F0-9]+$', s)` as a Boolean on the character
list of `s`.  In Python, `$` matches at the end of the string or just
before a single newline at the end of the string, so the pattern also
accepts one trailing `'\n'` after the hex characters. -/
def pyHexMatch (l : List Char) : Bool :=
  let core := if l.getLast? = some '\n' then l.dropLast else l
  !core.isEmpty && core.all isHexChar

/-- `utils.is_40_hex_chars`: length exactly 40 and
`re.match(r'^[a-fA-F0-9]+$', branch_name)` succeeds. -/
def is_40_hex_chars (branch_name : String) : Bool :=
  branch_name.length == 40 && pyHexMatch branch_name.data

/-- `utils.sanitize_branch_name`: prefix `"branch-"` when
`is_40_hex_chars` holds, otherwise return the name unchanged. -/
def sanitize_branch_name (branch_name : String) : String :=
  if is_40_hex_chars branch_name then "branch-" ++ branch_name else branch_name

/-- Python whitespace characters stripped by `int()` before parsing. -/
def isPySpace (c : Char) : Bool :=
  c = ' ' || c = '\t' || c = '\n' || c = '\r' || c = '\x0b' || c = '\x0c'

/-- Strip Python whitespace from both ends of a character list
(the first thing Python `int()` does to its string argument). -/
def pyStrip (l : List Char) : List Char :=
  ((l.dropWhile isPySpace).reverse.dropWhile isPySpace).reverse

/-- Numeric value of a list of ASCII decimal digits. -/
def digitsVal (l : List Char) : Nat :=
  l.foldl (fun a c => 10 * a + (c.toNat - '0'.toNat)) 0

/-- Parse a nonempty all-digit list, else fail (`ValueError`). -/
def natDigits (l : List Char) : Option Nat :=
  if !l.isEmpty && l.all Char.isDigit then some (digitsVal l) else none

/-- Python `int(s)` on a whitespace-stripped character list: optional
sign followed by a nonempty digit run; anything else raises
`ValueError`, modelled as `none`.  (Underscore digit grouping and
non-ASCII digits, which CPython also accepts, never occur on the
reachable inputs of this program and are not modelled.) -/
def pyIntCore (t : List Char) : Option Int :=
  match t with
  | [] => none
  | c :: rest =>
    if c = '+' then (natDigits rest).map Int.ofNat
    else if c = '-' then (natDigits rest).map (fun n => -(n : Int))
    else (natDigits t).map Int.ofNat

/-- Python `int(s)`: strip whitespace, then parse. -/
def pyInt (l : List Char) : Option Int :=
  pyIntCore (pyStrip l)

/-- The `_h` multiplier table of `utils.cov2sec`.  All stored values are
nonzero, so Python's truthiness test `if _h.get(s[-1])` is equivalent to
key membership, i.e. to this function returning `some`. -/
def unitFactor (c : Char) : Option Int :=
  if c = 's' then some 1
  else if c = 'm' then some 60
  else if c = 'h' then some 3600
  else if c = 'd' then some 86400
  else if c = 'w' then some 604800
  else none

/-- `utils.cov2sec` on the character list of its argument.  `s[-1]`
raises `IndexError` on an empty string (`none`); a recognised trailing
unit multiplies the `int` of the rest; otherwise `int` of the whole
string.  `none` models an uncaught Python exception. -/
def cov2secL (l : List Char) : Option Int :=
  match l.getLast? with
  | none => none
  | some c =>
    match unitFactor c with
    | some m => (pyInt l.dropLast).map (· * m)
    | none => pyInt l

/-- `utils.cov2sec` on strings. -/
def cov2sec (s : String) : Option Int :=
  cov2secL s.data

/-- Python `re.match(r"^\d+[dhms]?$", timeout)` as a Boolean (the guard
in `Mirror.__init__`).  As with `pyHexMatch`, `$` also matches just
before one trailing newline. -/
def timeoutMatchL (l : List Char) : Bool :=
  let core := if l.getLast? = some '\n' then l.dropLast else l
  match core.getLast? with
  | none => false
  | some c =>
    if c = 'd' || c = 'h' || c = 'm' || c = 's' then
      !core.dropLast.isEmpty && core.dropLast.all Char.isDigit
    else
      core.all Char.isDigit

/-- The timeout field computed by `Mirror.__init__`: `cov2sec(timeout)`
when the regex matches, else `0`.  `none` models `cov2sec` raising. -/
def mirrorTimeout (timeout : String) : Option Int :=
  if timeoutMatchL timeout.data then cov2secL timeout.data else some 0

/-- The second count the specification assigns to a matching timeout
string: value of the digits times the unit factor (unit-less means
seconds; `s`/`m`/`h`/`d` mean seconds/minutes/hours/days). -/
def specSeconds (l : List Char) : Int :=
  match l.getLast? with
  | none => 0
  | some c =>
    if c = 's' then (digitsVal l.dropLast : Int) * 1
    else if c = 'm' then (digitsVal l.dropLast : Int) * 60
    else if c = 'h' then (digitsVal l.dropLast : Int) * 3600
    else if c = 'd' then (digitsVal l.dropLast : Int) * 86400
    else (digitsVal l : Int)

/-! ## Embedding of `Mirror.push` (`mirror.py`, lines 118–231)

`push` issues a sequence of external git invocations.  We model the
repository handle by the data `push` actually inspects: the extracted
names of the remote-tracking branch references of `origin` (the
`remote_ref.name.split('/')[-1]` values) and whether `git rev-list -n 1
--all` produces any output.  The trace records every `git push` and
`git lfs push` invocation with its argument list; remote management
(`set-head`, remote re-creation) takes no refspec and is not traced. -/

/-- One traced external invocation issued by `Mirror.push`. -/
inductive GitCmd where
  | push (args : List String)
  | lfsPush (args : List String)
deriving DecidableEq, Repr

/-- The fields of a `Mirror` job consumed by `push`. -/
structure MirrorCfg where
  dstType : String
  branch : Option String
  forceUpdate : Bool
  lfs : Bool
deriving DecidableEq, Repr

/-- The local repository data inspected by `push`. -/
structure LocalRepo where
  originRefs : List String
  hasCommit : Bool
deriving DecidableEq, Repr

/-- Python truthiness of the optional `self.branch` attribute
(`None` and the empty string are falsy). -/
def pyTruthy : Option String → Bool
  | none => false
  | some s => !(s == "")

/-- `Mirror._check_empty`: true iff `git rev-list -n 1 --all` prints
nothing. -/
def check_empty (repo : LocalRepo) : Bool :=
  !repo.hasCommit

/-- The pairs `(original_name, sanitized_name)` accumulated by
`Mirror._sanitize_problematic_branches` while walking
`local_repo.remotes.origin.refs`. -/
def problematicBranches (repo : LocalRepo) : List (String × String) :=
  repo.originRefs.filterMap fun n =>
    if is_40_hex_chars n then some (n, sanitize_branch_name n) else none

/-- The explicit per-branch refspec built for a non-problematic branch
in the problematic case of `push`. -/
def normalRefspec (b : String) : String :=
  "refs/remotes/origin/" ++ b ++ ":refs/heads/" ++ b

/-- The bulk refspec used when no branch name is problematic. -/
def bulkRefspec : String :=
  "refs/remotes/origin/*:refs/heads/*"

/-- Prepend `-f` when force-update is set (`cmd = ['-f'] + cmd`). -/
def withForce (fu : Bool) (args : List String) : List String :=
  if fu then "-f" :: args else args

/-- The `cmd` argument list `push` assembles for its main push:
single-branch push, bulk push, or explicit refspecs for the
non-problematic branches (empty when every branch is problematic). -/
def mainCmd (cfg : MirrorCfg) (repo : LocalRepo) : List String :=
  if pyTruthy cfg.branch then
    [cfg.dstType, cfg.branch.getD ""]
  else if (problematicBranches repo).isEmpty then
    [cfg.dstType, bulkRefspec, "--tags", "--prune"]
  else
    let normals := (repo.originRefs.filter fun n => !is_40_hex_chars n).map normalRefspec
    if normals.isEmpty then [] else cfg.dstType :: normals ++ ["--tags", "--prune"]

/-- Result of one `Mirror.push` call: the traced invocations and the
sanitized local branch names whose creation was attempted. -/
structure PushResult where
  cmds : List GitCmd
  createdAliases : List String
deriving DecidableEq, Repr

/-- `Mirror.push(force)`.  The `force` parameter appears in the Python
signature but is never read; `self.force_update` alone decides the
`-f` flag.  An empty repository returns before any invocation.  The
main push runs only when `cmd` has more than one element; afterwards,
in the full-mirror case, each sanitized alias is pushed under its own
name (individual failures are caught and logged); finally the optional
LFS payload push. -/
def pushRun (cfg : MirrorCfg) (repo : LocalRepo) (force : Bool) : PushResult :=
  if check_empty repo then ⟨[], []⟩
  else
    let cmd := mainCmd cfg repo
    let main : List GitCmd :=
      if 1 < cmd.length then [GitCmd.push (withForce cfg.forceUpdate cmd)] else []
    let sans : List GitCmd :=
      if pyTruthy cfg.branch then []
      else (problematicBranches repo).map fun p =>
        GitCmd.push (withForce cfg.forceUpdate [cfg.dstType, p.2 ++ ":" ++ p.2])
    let lfsc : List GitCmd :=
      if cfg.lfs then [GitCmd.lfsPush ["push", cfg.dstType, "--all"]] else []
    { cmds := main ++ sans ++ lfsc
      createdAliases :=
        if pyTruthy cfg.branch then []
        else (problematicBranches repo).map (·.2) }

/-! ## Retry policy

`mirror.py` decorates `_clone`, `_update`, `download` and `push` with
`@retry(wait=wait_exponential(), reraise=True, stop=stop_after_attempt(3))`
from the external `tenacity` library, which is not part of this
repository's sources. -/

/-- Modelled from the spec: the RetryPolicy backoff (the `tenacity`
library's `wait_exponential()` is not part of the repository sources).
Per the spec, the base delay doubles each attempt with no fixed cap:
the wait after failed attempt `n` is `2 ^ (n - 1)` seconds. -/
def waitExponential (n : Nat) : Nat :=
  2 ^ (n - 1)

/-- Modelled from the spec: the RetryPolicy attempt loop (the
`tenacity` `retry` decorator is not part of the repository sources).
`attempt` is the index of the attempt about to run, `fuel` the number
of further attempts allowed after it.  Per the spec it retries failed
attempts, sleeping `waitExponential` between them, and on exhaustion
re-raises the last failure unmodified.  Returns the result, the total
number of invocations of `f`, and the list of waits performed. -/
def retryGo {E A : Type} (f : Nat → Except E A) : Nat → Nat → Except E A × Nat × List Nat
  | attempt, fuel =>
    match f attempt, fuel with
    | .ok a, _ => (.ok a, attempt, [])
    | .error e, 0 => (.error e, attempt, [])
    | .error _, n + 1 =>
      let r := retryGo f (attempt + 1) n
      (r.1, r.2.1, waitExponential attempt :: r.2.2)

/-- Modelled from the spec: RetryPolicy with
`stop_after_attempt(3)` — at most 3 attempts in total. -/
def retryPolicy {E A : Type} (f : Nat → Except E A) : Except E A × Nat × List Nat :=
  retryGo f 1 2

/-! ## Embedding of `download` / `_update` / `_clone` recovery logic
(`mirror.py`, lines 91–112)

The interpreter below tracks how many pull and clone invocations have
happened, whether the repository directory currently exists, and the
trace of filesystem-visible actions.  The environment `World` fixes the
initial existence of the cache path and the outcome of the n-th pull
try-block and the n-th clone invocation.  Each `@retry` loop (3
attempts, any exception) is unrolled.

Correspondence with the Python control flow:
* `_clone` body: one clone invocation; on success the directory exists.
* `_update` body: run the `try` block (`git pull`, plus the optional
  LFS fetch).  If the directory is missing the pull raises an error
  that is not a `GitCommandError` and propagates; if the try block
  fails with `GitCommandError`, `shutil.rmtree` deletes the directory
  and `_clone()` (with its own retry loop) runs.
* `download` body: `git.Repo(path)` raises `NoSuchPathError` when the
  directory is missing, in which case `_clone()` runs; otherwise
  `_update(local_repo)` runs. -/

/-- Filesystem-visible actions of the download path. -/
inductive Act where
  | pull
  | rmtree
  | clone
deriving DecidableEq, Repr

/-- Environment for the download interpreter: `pathExists` is whether
the cache path exists at entry; `pullOk n` is whether the n-th
execution of the `_update` try block completes without
`GitCommandError`; `cloneOk n` is whether the n-th clone invocation
succeeds. -/
structure World where
  pathExists : Bool
  pullOk : Nat → Bool
  cloneOk : Nat → Bool

/-- Interpreter state: invocation counters, current existence of the
repository directory, and the action trace so far. -/
structure DState where
  pulls : Nat
  clones : Nat
  dir : Bool
  tr : List Act
deriving Repr

/-- Outcome of one pull attempt: success, `GitCommandError` (caught by
`_update`), or a missing-directory error (not caught). -/
inductive PullRes where
  | ok
  | gitErr
  | noDir
deriving DecidableEq, Repr

/-- One `git pull` invocation. -/
def doPull (w : World) (s : DState) : PullRes × DState :=
  let r := if s.dir then (if w.pullOk s.pulls then PullRes.ok else PullRes.gitErr)
           else PullRes.noDir
  (r, { s with pulls := s.pulls + 1, tr := s.tr ++ [Act.pull] })

/-- One `git clone` invocation; on success the directory exists. -/
def doClone (w : World) (s : DState) : Bool × DState :=
  let ok := w.cloneOk s.clones
  (ok, { s with clones := s.clones + 1, dir := ok || s.dir, tr := s.tr ++ [Act.clone] })

/-- `Mirror._clone` under its 3-attempt retry loop. -/
def cloneRetry (w : World) (s : DState) : Bool × DState :=
  let r1 := doClone w s
  if r1.1 then r1 else
  let r2 := doClone w r1.2
  if r2.1 then r2 else doClone w r2.2

/-- The body of `Mirror._update`: pull; on `GitCommandError` delete the
working directory and re-clone (the re-clone running under `_clone`'s
own retry loop); a missing-directory error propagates uncaught. -/
def updateBody (w : World) (s : DState) : Bool × DState :=
  let r := doPull w s
  match r.1 with
  | PullRes.ok => (true, r.2)
  | PullRes.noDir => (false, r.2)
  | PullRes.gitErr =>
    cloneRetry w { r.2 with dir := false, tr := r.2.tr ++ [Act.rmtree] }

/-- `Mirror._update` under its 3-attempt retry loop (tenacity retries
on any exception). -/
def updateRetry (w : World) (s : DState) : Bool × DState :=
  let r1 := updateBody w s
  if r1.1 then r1 else
  let r2 := updateBody w r1.2
  if r2.1 then r2 else updateBody w r2.2

/-- The body of `Mirror.download`: `git.Repo(path)` raises
`NoSuchPathError` iff the directory is missing, in which case
`_clone()` runs; otherwise `_update(local_repo)` runs. -/
def downloadBody (w : World) (s : DState) : Bool × DState :=
  if s.dir then updateRetry w s else cloneRetry w s

/-- `Mirror.download` under its 3-attempt retry loop. -/
def downloadRetry (w : World) (s : DState) : Bool × DState :=
  let r1 := downloadBody w s
  if r1.1 then r1 else
  let r2 := downloadBody w r1.2
  if r2.1 then r2 else downloadBody w r2.2

/-- A full `download()` call on a fresh job against environment `w`. -/
def downloadRun (w : World) : Bool × DState :=
  downloadRetry w ⟨0, 0, w.pathExists, []⟩

/-! ## Embedding of the shallow-clone large-file rewrite
(`mirror.py`, lines 52–87)

The commit graph is modelled explicitly.  `index.commit` in GitPython
creates a commit whose parent list defaults to the current HEAD commit
(here always a singleton) and advances HEAD to it; the final commit is
created with `parent_commits=[]` and `skip_hooks=True`, after which
`head.reference.set_commit(new_commit)` and
`head.reset(index=True, working_tree=True)` force the branch reference
and working tree to it.  The oversized-files walk is abstracted to the
list of oversized file names it finds, in walk order; the
author/committer GitPython derives from the repository configuration
for the intermediate commits are the parameters `cfgAuthor` /
`cfgCommitter`. -/

/-- A commit object. -/
structure Commit where
  id : Nat
  message : String
  author : String
  committer : String
  parents : List Nat
  skippedHooks : Bool
deriving DecidableEq, Repr

/-- Repository state during the rewrite: object store (most recent
first), the commit the branch reference points at, the commit the
working tree reflects, and the next fresh object id. -/
structure RState where
  store : List Commit
  head : Nat
  work : Nat
  nextId : Nat
deriving Repr

/-- Look a commit up in the object store. -/
def getCommit (st : RState) (i : Nat) : Option Commit :=
  st.store.find? (fun c => c.id == i)

/-- `local_repo.index.commit(message, ...)`: append a fresh commit and
advance the branch reference to it. -/
def indexCommit (st : RState) (message author committer : String)
    (parents : List Nat) (skipHooks : Bool) : RState :=
  { st with
    store := { id := st.nextId, message := message, author := author,
               committer := committer, parents := parents,
               skippedHooks := skipHooks } :: st.store
    head := st.nextId
    nextId := st.nextId + 1 }

/-- The removal and re-add commits made for one oversized file
(`index.remove` + `index.commit`, `lfs track`, `git add`,
`index.commit` again); each commit's parent is the current head. -/
def processLargeFile (cfgAuthor cfgCommitter : String) (st : RState)
    (filename : String) : RState :=
  let st1 := indexCommit st
    ("Remove large file " ++ filename ++ " from history and track with git lfs")
    cfgAuthor cfgCommitter [st.head] false
  indexCommit st1
    ("Add large file " ++ filename ++ " back with git lfs tracking")
    cfgAuthor cfgCommitter [st1.head] false

/-- The shallow-clone rewrite: read the original head commit, process
every oversized file, then create the parentless hook-skipping final
commit from the original head's metadata and force the branch
reference and working tree to it.  `none` models the Python attribute
error raised when the head commit cannot be resolved. -/
def rewriteShallow (cfgAuthor cfgCommitter : String) (st0 : RState)
    (oversized : List String) : Option RState :=
  match getCommit st0 st0.head with
  | none => none
  | some origHead =>
    let st1 := oversized.foldl (processLargeFile cfgAuthor cfgCommitter) st0
    let st2 := indexCommit st1 origHead.message origHead.author
      origHead.committer [] true
    some { st2 with head := st2.head, work := st2.head }

/-- Reachability in the commit graph of a store: `Reaches store a b`
means `b` is in the history of `a` (reflexive-transitive closure of the
parent relation, parents resolved through the store). -/
inductive Reaches (store : List Commit) : Nat → Nat → Prop where
  | refl (a : Nat) : Reaches store a a
  | step {a b p : Nat} {c : Commit} : Reaches store a b →
      store.find? (fun k => k.id == b) = some c → p ∈ c.parents →
      Reaches store a p

/-! ## Helper lemmas -/

/-- The last element of a list is a member. -/
theorem mem_of_getLastEq {α : Type} {l : List α} {c : α}
    (h : l.getLast? = some c) : c ∈ l := by
  have h2 := List.dropLast_append_getLast? c (Option.mem_def.mpr h)
  rw [← h2]; simp

/-- A decimal digit is not Python whitespace. -/
theorem not_pySpace_of_digit {c : Char} (h : c.isDigit = true) :
    isPySpace c = false := by
  cases hc : isPySpace c
  · rfl
  · exfalso
    simp only [isPySpace, Bool.or_eq_true, decide_eq_true_eq] at hc
    rcases hc with ((((rfl | rfl) | rfl) | rfl) | rfl) | rfl <;>
      exact absurd h (by decide)

/-- A nonempty all-digit character list is untouched by Python's
whitespace stripping. -/
theorem pyStrip_of_all_digits {l : List Char} (hne : l ≠ [])
    (hall : l.all Char.isDigit = true) : pyStrip l = l := by
  unfold pyStrip
  have h1 : l.dropWhile isPySpace = l := by
    cases l with
    | nil => rfl
    | cons c t =>
      have hc : c.isDigit = true := List.all_eq_true.mp hall c (by simp)
      simp [List.dropWhile_cons, not_pySpace_of_digit hc]
  rw [h1]
  have h2 : l.reverse.dropWhile isPySpace = l.reverse := by
    cases hr : l.reverse with
    | nil => simp
    | cons d r =>
      have hd : d.isDigit = true := by
        refine List.all_eq_true.mp hall d ?_
        have : d ∈ l.reverse := by rw [hr]; simp
        simpa using this
      simp [List.dropWhile_cons, not_pySpace_of_digit hd]
  rw [h2, List.reverse_reverse]

/-- Python `int()` on a nonempty all-digit character list returns its
decimal value. -/
theorem pyInt_of_all_digits {l : List Char} (hne : l ≠ [])
    (hall : l.all Char.isDigit = true) :
    pyInt l = some ((digitsVal l : Int)) := by
  unfold pyInt
  rw [pyStrip_of_all_digits hne hall]
  cases l with
  | nil => exact absurd rfl hne
  | cons c t =>
    have hc : c.isDigit = true := List.all_eq_true.mp hall c (by simp)
    have h1 : c ≠ '+' := fun e => by rw [e] at hc; exact absurd hc (by decide)
    have h2 : c ≠ '-' := fun e => by rw [e] at hc; exact absurd hc (by decide)
    simp [pyIntCore, h1, h2, natDigits, hall, Int.ofNat_eq_coe]

/-! ## C7: empty repository push is a no-op -/

/-- C7: for every job whose local repository has no reachable commit
across all references, `push()` performs zero push command invocations
(and attempts no sanitized-branch creation) and returns successfully. -/
theorem C7_empty_repo_push_noop (cfg : MirrorCfg) (repo : LocalRepo)
    (force : Bool) (h : repo.hasCommit = false) :
    pushRun cfg repo force = ⟨[], []⟩ := by
  simp [pushRun, check_empty, h]

/-- Witness for C7 at a concrete empty repository. -/
theorem C7_empty_repo_push_noop_witness :
    (LocalRepo.mk ["main"] false).hasCommit = false ∧
    pushRun ⟨"github", none, false, false⟩ (LocalRepo.mk ["main"] false) false
      = ⟨[], []⟩ :=
  ⟨rfl, C7_empty_repo_push_noop ⟨"github", none, false, false⟩
    (LocalRepo.mk ["main"] false) false rfl⟩

/-! ## C8: single-branch push is pushed raw, never sanitized -/

/-- C8: a job constructed with a single-branch restriction pushes
exactly that branch by its original, unsanitized name (even a 40-hex
name), and no sanitized-alias branches are created or pushed. -/
theorem C8_single_branch_unsanitized (cfg : MirrorCfg) (repo : LocalRepo)
    (force : Bool) (b : String) (hb : cfg.branch = some b) (hbne : b ≠ "")
    (hne : repo.hasCommit = true) :
    pushRun cfg repo force =
      ⟨[GitCmd.push (withForce cfg.forceUpdate [cfg.dstType, b])] ++
        (if cfg.lfs then [GitCmd.lfsPush ["push", cfg.dstType, "--all"]] else []),
       []⟩ := by
  have hbt : pyTruthy (some b) = true := by simpa [pyTruthy] using hbne
  simp [pushRun, check_empty, hne, mainCmd, hb, hbt]

/-- Witness for C8 at a 40-hex branch name: the push uses the raw name
even though the name satisfies the problematic-name predicate. -/
theorem C8_single_branch_unsanitized_witness :
    is_40_hex_chars "aaaaaaaaaaaaaaaaaaaaaaaaaaaaaaaaaaaaaaaa" = true ∧
    pushRun
      ⟨"github", some "aaaaaaaaaaaaaaaaaaaaaaaaaaaaaaaaaaaaaaaa", false, false⟩
      (LocalRepo.mk ["aaaaaaaaaaaaaaaaaaaaaaaaaaaaaaaaaaaaaaaa"] true) false =
      ⟨[GitCmd.push (withForce false
          ["github", "aaaaaaaaaaaaaaaaaaaaaaaaaaaaaaaaaaaaaaaa"])] ++
        (if false then [GitCmd.lfsPush ["push", "github", "--all"]] else []),
       []⟩ :=
  ⟨by decide,
   C8_single_branch_unsanitized
     ⟨"github", some "aaaaaaaaaaaaaaaaaaaaaaaaaaaaaaaaaaaaaaaa", false, false⟩
     (LocalRepo.mk ["aaaaaaaaaaaaaaaaaaaaaaaaaaaaaaaaaaaaaaaa"] true) false
     "aaaaaaaaaaaaaaaaaaaaaaaaaaaaaaaaaaaaaaaa" rfl (by decide) rfl⟩

/-! ## C10: the `force` parameter of `push` is dead -/

/-- C10: `push(force=True)` and `push(force=False)` issue exactly the
same command sequence on every job state, and every push invocation's
argument list is the `withForce` of the construction-time
`force_update` flag applied to a base command — the `-f` decision never
consults the `force` parameter. -/
theorem C10_force_parameter_dead (cfg : MirrorCfg) (repo : LocalRepo)
    (f1 f2 : Bool) :
    pushRun cfg repo f1 = pushRun cfg repo f2 ∧
    ∀ args, GitCmd.push args ∈ (pushRun cfg repo f1).cmds →
      ∃ base, args = withForce cfg.forceUpdate base := by
  refine ⟨rfl, ?_⟩
  intro args hmem
  by_cases he : check_empty repo = true
  · simp [pushRun, he] at hmem
  · rw [Bool.not_eq_true] at he
    have hpr : (pushRun cfg repo f1).cmds =
        (if 1 < (mainCmd cfg repo).length then
          [GitCmd.push (withForce cfg.forceUpdate (mainCmd cfg repo))] else []) ++
        ((if pyTruthy cfg.branch then []
          else (problematicBranches repo).map fun p =>
            GitCmd.push (withForce cfg.forceUpdate [cfg.dstType, p.2 ++ ":" ++ p.2])) ++
         (if cfg.lfs then [GitCmd.lfsPush ["push", cfg.dstType, "--all"]] else [])) := by
      simp [pushRun, he]
    rw [hpr, List.mem_append, List.mem_append] at hmem
    rcases hmem with hmain | hsan | hlfs
    · by_cases hlen : 1 < (mainCmd cfg repo).length
      · simp only [hlen, if_true, List.mem_singleton] at hmain
        exact ⟨mainCmd cfg repo, by injection hmain⟩
      · simp [hlen] at hmain
    · by_cases hbt : pyTruthy cfg.branch = true
      · simp [hbt] at hsan
      · rw [Bool.not_eq_true] at hbt
        rw [if_neg (by simp [hbt]), List.mem_map] at hsan
        obtain ⟨p, -, hp⟩ := hsan
        refine ⟨[cfg.dstType, p.2 ++ ":" ++ p.2], ?_⟩
        injection hp with h
        exact h.symm
    · by_cases hl : cfg.lfs = true
      · simp [hl] at hlfs
      · simp [hl] at hlfs

/-! ## C2: retry succeeds on the third attempt -/

/-- C2: a command under the retry policy is attempted at most 3 times;
when it fails on attempts 1 and 2 and succeeds on attempt 3, the
overall operation succeeds with exactly 3 invocations, after backoff
waits that double (`waitExponential`). -/
theorem C2_retry_third_attempt {E A : Type} (f : Nat → Except E A)
    (e1 e2 : E) (a : A) (h1 : f 1 = .error e1) (h2 : f 2 = .error e2)
    (h3 : f 3 = .ok a) :
    retryPolicy f = (.ok a, 3, [waitExponential 1, waitExponential 2]) ∧
    (∀ (g : Nat → Except E A), (retryPolicy g).2.1 ≤ 3) ∧
    waitExponential 2 = 2 * waitExponential 1 := by
  refine ⟨?_, ?_, by decide⟩
  · simp [retryPolicy, retryGo, h1, h2, h3]
  · intro g
    unfold retryPolicy
    rcases hg1 : g 1 with e | a1
    · rcases hg2 : g 2 with e2s | a2
      · rcases hg3 : g 3 with e3 | a3 <;> simp [retryGo, hg1, hg2, hg3]
      · simp [retryGo, hg1, hg2]
    · simp [retryGo, hg1]

/-- A command that fails twice and then succeeds, for the C2 witness. -/
def retryWitFn : Nat → Except String Nat :=
  fun n => if n < 3 then .error "transient" else .ok 7

/-- Witness for C2 at a concrete command. -/
theorem C2_retry_third_attempt_witness :
    retryPolicy retryWitFn = (.ok 7, 3, [waitExponential 1, waitExponential 2]) ∧
    (∀ (g : Nat → Except String Nat), (retryPolicy g).2.1 ≤ 3) ∧
    waitExponential 2 = 2 * waitExponential 1 :=
  C2_retry_third_attempt retryWitFn "transient" "transient" 7 rfl rfl rfl

/-! ## C9: sanitize is idempotent -/

/-- The character list of a `"branch-"`-prefixed name never passes the
hex regex: it contains the non-hex character `'-'` even after dropping
a trailing newline. -/
theorem sanitized_prefix_not_40 (x : String) :
    is_40_hex_chars ("branch-" ++ x) = false := by
  by_cases hlen : ("branch-" ++ x).length = 40
  · have hdata : ("branch-" ++ x).data = "branch-".data ++ x.data :=
      String.data_append _ _
    have hxlen : x.data.length = 33 := by
      rw [String.length_append] at hlen
      have h7 : ("branch-" : String).length = 7 := by decide
      rw [h7] at hlen
      have hx33 : x.length = 33 := by omega
      exact hx33
    have hxne : x.data ≠ [] := by
      intro h; rw [h] at hxlen; simp at hxlen
    have hmem : ∀ t : List Char, '-' ∈ "branch-".data ++ t := by
      intro t
      exact List.mem_append_left t (by decide)
    have hcore : ∀ core : List Char, '-' ∈ core →
        (!core.isEmpty && core.all isHexChar) = false := by
      intro core hc
      cases hAll : core.all isHexChar
      · simp
      · exact absurd (List.all_eq_true.mp hAll '-' hc) (by decide)
    have hmatch : pyHexMatch ("branch-" ++ x).data = false := by
      rw [hdata]
      unfold pyHexMatch
      by_cases hnl : ("branch-".data ++ x.data).getLast? = some '\n'
      · rw [if_pos hnl]
        cases hx : x.data with
        | nil => exact absurd hx hxne
        | cons c t =>
          rw [List.dropLast_append_cons]
          exact hcore _ (hmem _)
      · rw [if_neg hnl]
        exact hcore _ (hmem _)
    unfold is_40_hex_chars
    rw [hmatch, Bool.and_false]
  · have hne : (("branch-" ++ x).length == 40) = false := by
      simpa using hlen
    unfold is_40_hex_chars
    rw [hne, Bool.false_and]

/-- C9: `sanitize` is idempotent on every branch name, because the
prefixed form never satisfies the hex-40 predicate. -/
theorem C9_sanitize_idempotent (x : String) :
    sanitize_branch_name (sanitize_branch_name x) = sanitize_branch_name x ∧
    is_40_hex_chars ("branch-" ++ x) = false := by
  refine ⟨?_, sanitized_prefix_not_40 x⟩
  by_cases h : is_40_hex_chars x = true
  · have h1 : sanitize_branch_name x = "branch-" ++ x := by
      simp [sanitize_branch_name, h]
    rw [h1]
    simp [sanitize_branch_name, sanitized_prefix_not_40 x]
  · have h1 : sanitize_branch_name x = x := by
      simp [sanitize_branch_name, h]
    rw [h1, h1]

/-! ## C6: the hex-40 sanitization predicate

The claim fails as stated: Python's `$` matches just before a trailing
newline, so a 40-character name of 39 hex digits followed by `'\n'` is
treated as problematic and prefixed although it is not made of 40 hex
characters. -/

/-- C6 counterexample: the 40-character name consisting of 39 `'a'`s
and a trailing newline does not consist only of `[0-9a-fA-F]`, yet
`sanitize_branch_name` does not return it unchanged. -/
theorem C6_counterexample :
    ¬("aaaaaaaaaaaaaaaaaaaaaaaaaaaaaaaaaaaaaaa\n".length = 40 ∧
      "aaaaaaaaaaaaaaaaaaaaaaaaaaaaaaaaaaaaaaa\n".data.all isHexChar = true) ∧
    sanitize_branch_name "aaaaaaaaaaaaaaaaaaaaaaaaaaaaaaaaaaaaaaa\n" ≠
      "aaaaaaaaaaaaaaaaaaaaaaaaaaaaaaaaaaaaaaa\n" := by
  constructor
  · intro h
    exact absurd h.2 (by decide)
  · decide

/-- C6 amended: for every branch name whose last character is not a
newline, `sanitize_branch_name` prefixes `"branch-"` exactly when the
name has length 40 and consists only of `[0-9a-fA-F]`, and returns
every other such name unchanged.  (A name of 39 hex characters plus a
trailing newline is additionally prefixed, because Python's `$`
matches before a trailing newline; see the counterexample.) -/
theorem C6_sanitize_amended (name : String)
    (hnl : name.data.getLast? ≠ some '\n') :
    ((name.length = 40 ∧ name.data.all isHexChar = true) →
      sanitize_branch_name name = "branch-" ++ name) ∧
    (¬(name.length = 40 ∧ name.data.all isHexChar = true) →
      sanitize_branch_name name = name) := by
  have hiff : is_40_hex_chars name = true ↔
      (name.length = 40 ∧ name.data.all isHexChar = true) := by
    unfold is_40_hex_chars pyHexMatch
    rw [if_neg hnl]
    constructor
    · intro h
      rw [Bool.and_eq_true, Bool.and_eq_true] at h
      exact ⟨by simpa using h.1, h.2.2⟩
    · rintro ⟨h40, hall⟩
      have hne : name.data.isEmpty = false := by
        have : name.data.length = 40 := h40
        cases hd : name.data
        · rw [hd] at this; simp at this
        · simp [hd]
      simp [h40, hne, hall]
  constructor
  · intro h
    simp [sanitize_branch_name, hiff.mpr h]
  · intro h
    have : is_40_hex_chars name = false := by
      cases hc : is_40_hex_chars name
      · rfl
      · exact absurd (hiff.mp hc) h
    simp [sanitize_branch_name, this]

/-- Witness for the amended C6 at concrete names: a 40-hex name is
prefixed and a short name is untouched. -/
theorem C6_sanitize_amended_witness :
    ("ABCDEF0123456789abcdef0123456789ABCDEF01".data.getLast? ≠ some '\n') ∧
    (("ABCDEF0123456789abcdef0123456789ABCDEF01".length = 40 ∧
      "ABCDEF0123456789abcdef0123456789ABCDEF01".data.all isHexChar = true) →
      sanitize_branch_name "ABCDEF0123456789abcdef0123456789ABCDEF01" =
        "branch-" ++ "ABCDEF0123456789abcdef0123456789ABCDEF01") ∧
    (¬("ABCDEF0123456789abcdef0123456789ABCDEF01".length = 40 ∧
       "ABCDEF0123456789abcdef0123456789ABCDEF01".data.all isHexChar = true) →
      sanitize_branch_name "ABCDEF0123456789abcdef0123456789ABCDEF01" =
        "ABCDEF0123456789abcdef0123456789ABCDEF01") :=
  ⟨by decide, C6_sanitize_amended "ABCDEF0123456789abcdef0123456789ABCDEF01"
    (by decide)⟩

/-! ## C5: the timeout conversion

The claim fails as stated: Python's `$` matches just before a trailing
newline, so `"90s\n"` passes the guard regex of `Mirror.__init__`, but
`cov2sec("90s\n")` then calls `int("90s\n")`, which raises
`ValueError` — the timeout is neither the correct second count nor 0. -/

/-- C5 counterexample: `"90s\n"` matches the guard regex as Python
evaluates it, yet constructing the job raises instead of producing a
second count (`mirrorTimeout` is `none`, not `some 90` and not
`some 0`). -/
theorem C5_counterexample :
    timeoutMatchL ("90s\n").data = true ∧ mirrorTimeout "90s\n" = none := by
  decide

/-- A digit character is not one of the unit letters of `cov2sec`. -/
theorem unitFactor_of_digit {c : Char} (h : c.isDigit = true) :
    unitFactor c = none := by
  have hs : c ≠ 's' := fun e => by rw [e] at h; exact absurd h (by decide)
  have hm : c ≠ 'm' := fun e => by rw [e] at h; exact absurd h (by decide)
  have hh : c ≠ 'h' := fun e => by rw [e] at h; exact absurd h (by decide)
  have hd : c ≠ 'd' := fun e => by rw [e] at h; exact absurd h (by decide)
  have hw : c ≠ 'w' := fun e => by rw [e] at h; exact absurd h (by decide)
  simp [unitFactor, hs, hm, hh, hd, hw]

/-- C5 amended: for every timeout string whose last character is not a
newline, a string matching `^\d+[dhms]?$` yields exactly the second
count the specification's unit table assigns, and any non-matching
string yields 0.  (Strings with one trailing newline also pass the
Python regex; a bare digit run plus newline still yields its value
because `int()` strips whitespace, while digits + unit + newline make
`cov2sec` raise `ValueError`; see the counterexample.) -/
theorem C5_timeout_amended (s : String)
    (hnl : s.data.getLast? ≠ some '\n') :
    (timeoutMatchL s.data = true → mirrorTimeout s = some (specSeconds s.data)) ∧
    (timeoutMatchL s.data = false → mirrorTimeout s = some 0) := by
  constructor
  · intro hm
    have hred : mirrorTimeout s = cov2secL s.data := by
      simp [mirrorTimeout, hm]
    rw [hred]
    have hm2 : (match s.data.getLast? with
        | none => false
        | some c =>
          if c = 'd' || c = 'h' || c = 'm' || c = 's' then
            !s.data.dropLast.isEmpty && s.data.dropLast.all Char.isDigit
          else
            s.data.all Char.isDigit) = true := by
      have := hm
      unfold timeoutMatchL at this
      rwa [if_neg hnl] at this
    cases hl : s.data.getLast? with
    | none => rw [hl] at hm2; simp at hm2
    | some c =>
      rw [hl] at hm2
      simp only at hm2
      by_cases hu : (c = 'd' || c = 'h' || c = 'm' || c = 's') = true
      · rw [if_pos hu] at hm2
        rw [Bool.and_eq_true, Bool.not_eq_true', List.isEmpty_eq_false] at hm2
        obtain ⟨hne, hall⟩ := hm2
        have hpy := pyInt_of_all_digits hne hall
        simp only [Bool.or_eq_true, decide_eq_true_eq] at hu
        unfold cov2secL specSeconds
        rw [hl]
        rcases hu with ((rfl | rfl) | rfl) | rfl <;>
          simp [unitFactor, hpy]
      · rw [if_neg hu] at hm2
        have hcm : c ∈ s.data := mem_of_getLastEq hl
        have hcd : c.isDigit = true := List.all_eq_true.mp hm2 c hcm
        have hne : s.data ≠ [] := by
          intro h; rw [h] at hl; simp at hl
        have hpy := pyInt_of_all_digits hne hm2
        have hsu : ¬(c = 's') := fun e => by
          rw [e] at hcd; exact absurd hcd (by decide)
        have hmu : ¬(c = 'm') := fun e => by
          rw [e] at hcd; exact absurd hcd (by decide)
        have hhu : ¬(c = 'h') := fun e => by
          rw [e] at hcd; exact absurd hcd (by decide)
        have hdu : ¬(c = 'd') := fun e => by
          rw [e] at hcd; exact absurd hcd (by decide)
        unfold cov2secL specSeconds
        rw [hl]
        simp [unitFactor_of_digit hcd, hpy, hsu, hmu, hhu, hdu]
  · intro hm
    simp [mirrorTimeout, hm]

/-- Witness for the amended C5 at `"2m"` (→ 120 seconds) — both
conjuncts instantiated at a concrete matching string. -/
theorem C5_timeout_amended_witness :
    ("2m".data.getLast? ≠ some '\n') ∧
    (timeoutMatchL "2m".data = true →
      mirrorTimeout "2m" = some (specSeconds "2m".data)) ∧
    (timeoutMatchL "2m".data = false → mirrorTimeout "2m" = some 0) :=
  ⟨by decide, C5_timeout_amended "2m" (by decide)⟩

/-! ## C1: full-mirror push with problematic branches -/

/-- Membership is preserved by the optional `-f` prefix. -/
theorem mem_withForce {x : String} {l : List String} (fu : Bool)
    (h : x ∈ l) : x ∈ withForce fu l := by
  unfold withForce; cases fu <;> simp [h]

/-- The bulk refspec is absent from a force-wrapped command whenever it
is absent from the base command. -/
theorem bulk_not_mem_withForce {fu : Bool} {l : List String}
    (h : bulkRefspec ∉ l) : bulkRefspec ∉ withForce fu l := by
  unfold withForce
  cases fu
  · simpa using h
  · intro hc
    rcases List.mem_cons.mp hc with he | hm
    · exact absurd he (by decide)
    · exact h hm

/-- An explicit per-branch refspec for a git-valid branch name (no `*`
character) is never the bulk refspec. -/
theorem normalRefspec_ne_bulk {b : String} (hb : '*' ∉ b.data) :
    normalRefspec b ≠ bulkRefspec := by
  intro h
  unfold normalRefspec bulkRefspec at h
  have hd := congrArg String.data h
  rw [String.data_append, String.data_append, String.data_append,
    List.append_assoc, List.append_assoc] at hd
  have hbulk : ("refs/remotes/origin/*:refs/heads/*" : String).data =
      "refs/remotes/origin/".data ++ ('*' :: (":refs/heads/".data ++ ['*'])) := by
    decide
  rw [hbulk] at hd
  have h2 := List.append_cancel_left hd
  cases hbd : b.data with
  | nil =>
    rw [hbd] at h2
    exact absurd h2 (by decide)
  | cons c t =>
    rw [hbd] at h2
    injection h2 with hc ht
    exact hb (by rw [hbd, hc]; exact List.mem_cons_self _ _)

/-- The refspec pushed for a sanitized alias branch is never the bulk
refspec: it starts with `'b'`, not `'r'`. -/
theorem sanitizedRef_ne_bulk {b : String} (h40 : is_40_hex_chars b = true) :
    sanitize_branch_name b ++ ":" ++ sanitize_branch_name b ≠ bulkRefspec := by
  intro h
  have hsan : sanitize_branch_name b = "branch-" ++ b := by
    simp [sanitize_branch_name, h40]
  rw [hsan] at h
  have hd := congrArg String.data h
  rw [String.data_append, String.data_append, String.data_append] at hd
  have hh := congrArg List.head? hd
  have hb' : ((("branch-".data ++ b.data) ++ (":" : String).data) ++
      ("branch-".data ++ b.data)).head? = some 'b' := rfl
  have hr : bulkRefspec.data.head? = some 'r' := rfl
  rw [hb', hr] at hh
  exact absurd hh (by decide)

/-- A problematic pair taken from `problematicBranches` is of the form
`(b, sanitize_branch_name b)` for a problematic member branch. -/
theorem problematicBranches_mem {repo : LocalRepo} {p : String × String}
    (hp : p ∈ problematicBranches repo) :
    p.1 ∈ repo.originRefs ∧ is_40_hex_chars p.1 = true ∧
    p.2 = sanitize_branch_name p.1 := by
  obtain ⟨a, ham, hfa⟩ := List.mem_filterMap.mp hp
  cases h40 : is_40_hex_chars a with
  | false => rw [h40] at hfa; simp at hfa
  | true =>
    rw [h40] at hfa
    simp only [if_true] at hfa
    injection hfa with hfa2
    rw [← hfa2]
    exact ⟨ham, h40, rfl⟩

/-- C1: on a full-mirror push (no single-branch restriction) of a
nonempty repository whose remote branch set contains at least one
problematic 40-hex name, `push()` issues an explicit per-branch refspec
for every non-problematic branch, issues one separate push per
problematic branch under its sanitized alias name, and never issues
the bulk refspec `refs/remotes/origin/*:refs/heads/*`.  Branch names
are git-valid (no `*`) and the destination remote name is not itself
the bulk refspec. -/
theorem C1_problematic_full_push (cfg : MirrorCfg) (repo : LocalRepo)
    (force : Bool)
    (hbr : pyTruthy cfg.branch = false)
    (hne : repo.hasCommit = true)
    (hprob : ∃ b ∈ repo.originRefs, is_40_hex_chars b = true)
    (hvalid : ∀ b ∈ repo.originRefs, '*' ∉ b.data)
    (hdst : cfg.dstType ≠ bulkRefspec) :
    (∀ b ∈ repo.originRefs, is_40_hex_chars b = false →
      ∃ args, GitCmd.push args ∈ (pushRun cfg repo force).cmds ∧
        normalRefspec b ∈ args) ∧
    (∀ b ∈ repo.originRefs, is_40_hex_chars b = true →
      GitCmd.push (withForce cfg.forceUpdate
        [cfg.dstType, sanitize_branch_name b ++ ":" ++ sanitize_branch_name b])
        ∈ (pushRun cfg repo force).cmds) ∧
    (∀ args, GitCmd.push args ∈ (pushRun cfg repo force).cmds →
      bulkRefspec ∉ args) := by
  obtain ⟨b0, hb0m, hb0p⟩ := hprob
  have hpe : check_empty repo = false := by simp [check_empty, hne]
  have hprobs_ne : problematicBranches repo ≠ [] := by
    intro h
    have hmem : (b0, sanitize_branch_name b0) ∈ problematicBranches repo :=
      List.mem_filterMap.mpr ⟨b0, hb0m, by simp [hb0p]⟩
    rw [h] at hmem
    exact absurd hmem (List.not_mem_nil _)
  have hmain_eq : mainCmd cfg repo =
      (if ((repo.originRefs.filter fun n => !is_40_hex_chars n).map
            normalRefspec).isEmpty then []
       else cfg.dstType ::
         ((repo.originRefs.filter fun n => !is_40_hex_chars n).map
            normalRefspec) ++ ["--tags", "--prune"]) := by
    unfold mainCmd
    rw [if_neg (by simp [hbr]), if_neg (by simp [hprobs_ne])]
  have hcmds : (pushRun cfg repo force).cmds =
      (if 1 < (mainCmd cfg repo).length then
        [GitCmd.push (withForce cfg.forceUpdate (mainCmd cfg repo))] else []) ++
      (((problematicBranches repo).map fun p =>
        GitCmd.push (withForce cfg.forceUpdate
          [cfg.dstType, p.2 ++ ":" ++ p.2])) ++
       (if cfg.lfs then [GitCmd.lfsPush ["push", cfg.dstType, "--all"]]
        else [])) := by
    simp [pushRun, hpe, hbr]
  refine ⟨?_, ?_, ?_⟩
  · -- every non-problematic branch gets an explicit refspec in a push
    intro b hbm hbf
    have hrm : normalRefspec b ∈
        (repo.originRefs.filter fun n => !is_40_hex_chars n).map normalRefspec :=
      List.mem_map_of_mem _ (List.mem_filter.mpr ⟨hbm, by simp [hbf]⟩)
    have hmap_ne :
        ((repo.originRefs.filter fun n => !is_40_hex_chars n).map
          normalRefspec).isEmpty = false := by
      cases hie : ((repo.originRefs.filter fun n => !is_40_hex_chars n).map
          normalRefspec).isEmpty
      · rfl
      · rw [List.isEmpty_iff] at hie
        rw [hie] at hrm
        exact absurd hrm (List.not_mem_nil _)
    have hmc : mainCmd cfg repo = cfg.dstType ::
        ((repo.originRefs.filter fun n => !is_40_hex_chars n).map
          normalRefspec) ++ ["--tags", "--prune"] := by
      rw [hmain_eq, hmap_ne]
      simp
    have hlen : 1 < (mainCmd cfg repo).length := by
      rw [hmc]
      simp [List.length_append]
    refine ⟨withForce cfg.forceUpdate (mainCmd cfg repo), ?_, ?_⟩
    · rw [hcmds, if_pos hlen]
      exact List.mem_append_left _ (List.mem_singleton_self _)
    · refine mem_withForce _ ?_
      rw [hmc]
      exact List.mem_cons_of_mem _ (List.mem_append_left _ hrm)
  · -- every problematic branch gets its own sanitized-alias push
    intro b hbm hbt
    have hpm : (b, sanitize_branch_name b) ∈ problematicBranches repo :=
      List.mem_filterMap.mpr ⟨b, hbm, by simp [hbt]⟩
    have hsm : GitCmd.push (withForce cfg.forceUpdate
        [cfg.dstType, sanitize_branch_name b ++ ":" ++ sanitize_branch_name b])
        ∈ (problematicBranches repo).map fun p =>
          GitCmd.push (withForce cfg.forceUpdate
            [cfg.dstType, p.2 ++ ":" ++ p.2]) :=
      List.mem_map_of_mem _ hpm
    rw [hcmds]
    exact List.mem_append_right _ (List.mem_append_left _ hsm)
  · -- no push ever carries the bulk refspec
    intro args hargs hbulk
    rw [hcmds, List.mem_append, List.mem_append] at hargs
    rcases hargs with hmain | hsan | hlfs
    · by_cases hlen : 1 < (mainCmd cfg repo).length
      · rw [if_pos hlen, List.mem_singleton] at hmain
        injection hmain with hargs_eq
        subst hargs_eq
        by_cases hie : ((repo.originRefs.filter fun n => !is_40_hex_chars n).map
            normalRefspec).isEmpty = true
        · rw [hmain_eq, if_pos hie] at hlen
          simp at hlen
        · have hmc : mainCmd cfg repo = cfg.dstType ::
              ((repo.originRefs.filter fun n => !is_40_hex_chars n).map
                normalRefspec) ++ ["--tags", "--prune"] := by
            rw [hmain_eq, if_neg hie]
          rw [hmc] at hbulk
          have hbulk2 := hbulk
          refine bulk_not_mem_withForce ?_ hbulk2
          intro hmem
          rcases List.mem_cons.mp hmem with he | hm2
          · exact hdst he.symm
          · rcases List.mem_append.mp hm2 with hmr | htp
            · obtain ⟨bb, hbbm, hbbe⟩ := List.mem_map.mp hmr
              have hbb_refs : bb ∈ repo.originRefs :=
                (List.mem_filter.mp hbbm).1
              exact normalRefspec_ne_bulk (hvalid bb hbb_refs) hbbe
            · exact absurd htp (by decide)
      · rw [if_neg hlen] at hmain
        exact absurd hmain (List.not_mem_nil _)
    · obtain ⟨p, hpm, hpe2⟩ := List.mem_map.mp hsan
      obtain ⟨hp_refs, hp40, hp_san⟩ := problematicBranches_mem hpm
      injection hpe2 with hargs_eq
      subst hargs_eq
      refine bulk_not_mem_withForce ?_ hbulk
      intro hmem
      rcases List.mem_cons.mp hmem with he | hm2
      · exact hdst he.symm
      · rw [List.mem_singleton] at hm2
        rw [hp_san] at hm2
        exact sanitizedRef_ne_bulk hp40 hm2.symm
    · by_cases hl : cfg.lfs = true
      · rw [if_pos hl, List.mem_singleton] at hlfs
        exact GitCmd.noConfusion hlfs
      · rw [if_neg hl] at hlfs
        exact absurd hlfs (List.not_mem_nil _)

/-- Witness for C1: a repository with one normal branch and one 40-hex
branch, pushed full-mirror. -/
theorem C1_problematic_full_push_witness :
    ((∃ b ∈ ["main", "0123456789abcdef0123456789abcdef01234567"],
        is_40_hex_chars b = true) ∧
     (∀ b ∈ ["main", "0123456789abcdef0123456789abcdef01234567"],
        '*' ∉ b.data) ∧
     ("github" : String) ≠ bulkRefspec) ∧
    ((∀ b ∈ ["main", "0123456789abcdef0123456789abcdef01234567"],
        is_40_hex_chars b = false →
        ∃ args, GitCmd.push args ∈
          (pushRun ⟨"github", none, false, false⟩
            (LocalRepo.mk ["main", "0123456789abcdef0123456789abcdef01234567"]
              true) false).cmds ∧ normalRefspec b ∈ args) ∧
     (∀ b ∈ ["main", "0123456789abcdef0123456789abcdef01234567"],
        is_40_hex_chars b = true →
        GitCmd.push (withForce false
          ["github", sanitize_branch_name b ++ ":" ++ sanitize_branch_name b]) ∈
          (pushRun ⟨"github", none, false, false⟩
            (LocalRepo.mk ["main", "0123456789abcdef0123456789abcdef01234567"]
              true) false).cmds) ∧
     (∀ args, GitCmd.push args ∈
        (pushRun ⟨"github", none, false, false⟩
          (LocalRepo.mk ["main", "0123456789abcdef0123456789abcdef01234567"]
            true) false).cmds → bulkRefspec ∉ args)) :=
  ⟨⟨by decide, by decide, by decide⟩,
   C1_problematic_full_push ⟨"github", none, false, false⟩
     (LocalRepo.mk ["main", "0123456789abcdef0123456789abcdef01234567"] true)
     false rfl rfl (by decide) (by decide) (by decide)⟩

/-! ## C4: the shallow-clone rewrite produces a parentless final commit -/

/-- In a commit graph whose tip commit has no parents, the history
reachable from the tip is the tip alone. -/
theorem reaches_singleton {store : List Commit} {h : Nat} {fc : Commit}
    (hfind : store.find? (fun k => k.id == h) = some fc)
    (hpar : fc.parents = []) :
    ∀ b, Reaches store h b → b = h := by
  intro b hr
  induction hr with
  | refl => rfl
  | step hr2 hfind2 hp ih =>
    rw [ih, hfind] at hfind2
    injection hfind2 with hc
    rw [← hc, hpar] at hp
    exact absurd hp (List.not_mem_nil _)

/-- `indexCommit` makes the branch head resolve to the freshly created
commit. -/
theorem getCommit_indexCommit (st : RState) (msg a c : String)
    (ps : List Nat) (sk : Bool) :
    getCommit (indexCommit st msg a c ps sk) (indexCommit st msg a c ps sk).head
      = some { id := st.nextId, message := msg, author := a, committer := c,
               parents := ps, skippedHooks := sk } := by
  unfold getCommit indexCommit
  simp

/-- C4: after processing all oversized files of a shallow clone, the
rewriter's final commit reuses the original head commit's message,
author and committer, has no parent (so the history reachable from the
branch tip is exactly that single commit — none of the intermediate
removal/re-add commits appear in it), is created with hooks skipped,
and both the branch reference and the working tree are forced to it. -/
theorem C4_shallow_rewrite_root (cfgA cfgC : String) (st0 : RState)
    (oversized : List String) (stF : RState) (orig : Commit)
    (h0 : getCommit st0 st0.head = some orig)
    (hF : rewriteShallow cfgA cfgC st0 oversized = some stF) :
    ∃ fc : Commit, getCommit stF stF.head = some fc ∧
      fc.message = orig.message ∧ fc.author = orig.author ∧
      fc.committer = orig.committer ∧ fc.parents = [] ∧
      fc.skippedHooks = true ∧ stF.work = stF.head ∧
      (∀ b, Reaches stF.store stF.head b → b = stF.head) := by
  unfold rewriteShallow at hF
  rw [h0] at hF
  injection hF with hF2
  subst hF2
  have h1 := getCommit_indexCommit (oversized.foldl (processLargeFile cfgA cfgC) st0)
    orig.message orig.author orig.committer [] true
  exact ⟨_, h1, rfl, rfl, rfl, rfl, rfl, rfl,
    reaches_singleton h1 rfl⟩

/-- Witness for C4: a one-commit shallow clone with one oversized file;
the rewrite produces two intermediate commits and a parentless final
commit carrying the original metadata. -/
theorem C4_shallow_rewrite_root_witness :
    (getCommit ⟨[⟨0, "init", "alice", "bob", [], false⟩], 0, 0, 1⟩ 0 =
        some ⟨0, "init", "alice", "bob", [], false⟩ ∧
      rewriteShallow "auth" "comm"
        ⟨[⟨0, "init", "alice", "bob", [], false⟩], 0, 0, 1⟩ ["big.bin"] =
        some ⟨[⟨3, "init", "alice", "bob", [], true⟩,
               ⟨2, "Add large file big.bin back with git lfs tracking",
                 "auth", "comm", [1], false⟩,
               ⟨1, "Remove large file big.bin from history and track with git lfs",
                 "auth", "comm", [0], false⟩,
               ⟨0, "init", "alice", "bob", [], false⟩], 3, 3, 4⟩) ∧
    (∃ fc : Commit,
      getCommit ⟨[⟨3, "init", "alice", "bob", [], true⟩,
               ⟨2, "Add large file big.bin back with git lfs tracking",
                 "auth", "comm", [1], false⟩,
               ⟨1, "Remove large file big.bin from history and track with git lfs",
                 "auth", "comm", [0], false⟩,
               ⟨0, "init", "alice", "bob", [], false⟩], 3, 3, 4⟩ 3 = some fc ∧
      fc.message = "init" ∧ fc.author = "alice" ∧ fc.committer = "bob" ∧
      fc.parents = [] ∧ fc.skippedHooks = true ∧ (3 : Nat) = 3 ∧
      (∀ b, Reaches [⟨3, "init", "alice", "bob", [], true⟩,
               ⟨2, "Add large file big.bin back with git lfs tracking",
                 "auth", "comm", [1], false⟩,
               ⟨1, "Remove large file big.bin from history and track with git lfs",
                 "auth", "comm", [0], false⟩,
               ⟨0, "init", "alice", "bob", [], false⟩] 3 b → b = 3)) :=
  ⟨⟨rfl, rfl⟩,
   C4_shallow_rewrite_root "auth" "comm"
     ⟨[⟨0, "init", "alice", "bob", [], false⟩], 0, 0, 1⟩ ["big.bin"]
     ⟨[⟨3, "init", "alice", "bob", [], true⟩,
       ⟨2, "Add large file big.bin back with git lfs tracking",
         "auth", "comm", [1], false⟩,
       ⟨1, "Remove large file big.bin from history and track with git lfs",
         "auth", "comm", [0], false⟩,
       ⟨0, "init", "alice", "bob", [], false⟩], 3, 3, 4⟩
     ⟨0, "init", "alice", "bob", [], false⟩ rfl rfl⟩

/-! ## C3: pull failure triggers delete + re-clone -/

/-- C3: for every job whose local cache path exists and whose first
pull try-block fails with a git command error, `download()` deletes
the local repository and starts a fresh clone (the action trace begins
`pull, rmtree, clone`); if `download()` returns successfully some clone
invocation succeeded, and if it fails, the clone retry budget (3
attempts) was exhausted at least once. -/
theorem C3_pull_failure_recovery (w : World)
    (hp : w.pathExists = true) (hf : w.pullOk 0 = false) :
    (downloadRun w).2.tr.take 3 = [Act.pull, Act.rmtree, Act.clone] ∧
    ((downloadRun w).1 = true → ∃ k, w.cloneOk k = true) ∧
    ((downloadRun w).1 = false → 3 ≤ (downloadRun w).2.clones) := by
  cases c0 : w.cloneOk 0 with
  | true =>
    exact ⟨by simp [downloadRun, downloadRetry, downloadBody, updateRetry, updateBody, cloneRetry, doClone, doPull, hp, hf, c0],
      fun _ => ⟨0, c0⟩, by simp [downloadRun, downloadRetry, downloadBody, updateRetry, updateBody, cloneRetry, doClone, doPull, hp, hf, c0]⟩
  | false =>
    cases c1 : w.cloneOk 1 with
    | true =>
      exact ⟨by simp [downloadRun, downloadRetry, downloadBody, updateRetry, updateBody, cloneRetry, doClone, doPull, hp, hf, c0, c1],
        fun _ => ⟨1, c1⟩, by simp [downloadRun, downloadRetry, downloadBody, updateRetry, updateBody, cloneRetry, doClone, doPull, hp, hf, c0, c1]⟩
    | false =>
      cases c2 : w.cloneOk 2 with
      | true =>
        exact ⟨by simp [downloadRun, downloadRetry, downloadBody, updateRetry, updateBody, cloneRetry, doClone, doPull, hp, hf, c0, c1, c2],
          fun _ => ⟨2, c2⟩, by simp [downloadRun, downloadRetry, downloadBody, updateRetry, updateBody, cloneRetry, doClone, doPull, hp, hf, c0, c1, c2]⟩
      | false =>
        cases c3 : w.cloneOk 3 with
        | true =>
          exact ⟨by simp [downloadRun, downloadRetry, downloadBody, updateRetry, updateBody, cloneRetry, doClone, doPull, hp, hf, c0, c1, c2, c3],
            fun _ => ⟨3, c3⟩, by simp [downloadRun, downloadRetry, downloadBody, updateRetry, updateBody, cloneRetry, doClone, doPull, hp, hf, c0, c1, c2, c3]⟩
        | false =>
          cases c4 : w.cloneOk 4 with
          | true =>
            exact ⟨by simp [downloadRun, downloadRetry, downloadBody, updateRetry, updateBody, cloneRetry, doClone, doPull, hp, hf, c0, c1, c2, c3, c4],
              fun _ => ⟨4, c4⟩, by simp [downloadRun, downloadRetry, downloadBody, updateRetry, updateBody, cloneRetry, doClone, doPull, hp, hf, c0, c1, c2, c3, c4]⟩
          | false =>
            cases c5 : w.cloneOk 5 with
            | true =>
              exact ⟨by simp [downloadRun, downloadRetry, downloadBody, updateRetry, updateBody, cloneRetry, doClone, doPull, hp, hf, c0, c1, c2, c3, c4, c5],
                fun _ => ⟨5, c5⟩, by simp [downloadRun, downloadRetry, downloadBody, updateRetry, updateBody, cloneRetry, doClone, doPull, hp, hf, c0, c1, c2, c3, c4, c5]⟩
            | false =>
              cases c6 : w.cloneOk 6 with
              | true =>
                exact ⟨by simp [downloadRun, downloadRetry, downloadBody, updateRetry, updateBody, cloneRetry, doClone, doPull, hp, hf, c0, c1, c2, c3, c4, c5, c6],
                  fun _ => ⟨6, c6⟩, by simp [downloadRun, downloadRetry, downloadBody, updateRetry, updateBody, cloneRetry, doClone, doPull, hp, hf, c0, c1, c2, c3, c4, c5, c6]⟩
              | false =>
                cases c7 : w.cloneOk 7 with
                | true =>
                  exact ⟨by simp [downloadRun, downloadRetry, downloadBody, updateRetry, updateBody, cloneRetry, doClone, doPull, hp, hf, c0, c1, c2, c3, c4, c5, c6, c7],
                    fun _ => ⟨7, c7⟩, by simp [downloadRun, downloadRetry, downloadBody, updateRetry, updateBody, cloneRetry, doClone, doPull, hp, hf, c0, c1, c2, c3, c4, c5, c6, c7]⟩
                | false =>
                  cases c8 : w.cloneOk 8 with
                  | true =>
                    exact ⟨by simp [downloadRun, downloadRetry, downloadBody, updateRetry, updateBody, cloneRetry, doClone, doPull, hp, hf, c0, c1, c2, c3, c4, c5, c6, c7, c8],
                      fun _ => ⟨8, c8⟩, by simp [downloadRun, downloadRetry, downloadBody, updateRetry, updateBody, cloneRetry, doClone, doPull, hp, hf, c0, c1, c2, c3, c4, c5, c6, c7, c8]⟩
                  | false =>
                    exact ⟨by simp [downloadRun, downloadRetry, downloadBody, updateRetry, updateBody, cloneRetry, doClone, doPull, hp, hf, c0, c1, c2, c3, c4, c5, c6, c7, c8],
                      by simp [downloadRun, downloadRetry, downloadBody, updateRetry, updateBody, cloneRetry, doClone, doPull, hp, hf, c0, c1, c2, c3, c4, c5, c6, c7, c8], by simp [downloadRun, downloadRetry, downloadBody, updateRetry, updateBody, cloneRetry, doClone, doPull, hp, hf, c0, c1, c2, c3, c4, c5, c6, c7, c8]⟩

/-- Witness for C3 at a concrete environment: the path exists, the pull
fails, and the first re-clone succeeds. -/
theorem C3_pull_failure_recovery_witness :
    ((World.mk true (fun _ => false) (fun _ => true)).pathExists = true ∧
     (World.mk true (fun _ => false) (fun _ => true)).pullOk 0 = false) ∧
    ((downloadRun (World.mk true (fun _ => false) (fun _ => true))).2.tr.take 3 =
        [Act.pull, Act.rmtree, Act.clone] ∧
     ((downloadRun (World.mk true (fun _ => false) (fun _ => true))).1 = true →
        ∃ k, (World.mk true (fun _ => false) (fun _ => true)).cloneOk k = true) ∧
     ((downloadRun (World.mk true (fun _ => false) (fun _ => true))).1 = false →
        3 ≤ (downloadRun (World.mk true (fun _ => false) (fun _ => true))).2.clones)) :=
  ⟨⟨rfl, rfl⟩,
   C3_pull_failure_recovery (World.mk true (fun _ => false) (fun _ => true))
     rfl rfl⟩
